import Mathlib

/-!
Verification development for the imprint_of_light 2D ray tracer.

The Rust source (src/shapes.rs, src/render.rs, src/calculate.rs) is shallowly
embedded here: f64 arithmetic is modelled by the real numbers, Rust Vec by
List, fallible constructors by Option, and the recursive trace function by
structural recursion on the depth counter.
-/

noncomputable section

/-- EPSILON from shapes.rs: 1e-6. -/
def EPSILON : ℝ := 1 / 1000000

/-- A 2D point or direction, a pair of coordinates (shapes.rs uses (f64, f64)). -/
abbrev Point : Type := ℝ × ℝ

/-- Intersection record from shapes.rs: a hit point and a normal. -/
structure Intersection where
  point : Point
  normal : Point

/-- Modelled from the spec: element.rs of the repository (the Color type) is not
under src/.  Per the spec a Color is three doubles (r,g,b); accumulation adds
per channel, weighting scales by a scalar, and Beer-Lambert attenuation
multiplies per channel; black is (0,0,0). -/
structure Color where
  r : ℝ
  g : ℝ
  b : ℝ

/-- Modelled from the spec: per-channel color addition. -/
def Color.add (x y : Color) : Color := ⟨x.r + y.r, x.g + y.g, x.b + y.b⟩

/-- Modelled from the spec: scaling a color by a scalar weight. -/
def Color.scale (x : Color) (k : ℝ) : Color := ⟨x.r * k, x.g * k, x.b * k⟩

/-- Modelled from the spec: per-channel color multiplication. -/
def Color.mul (x y : Color) : Color := ⟨x.r * y.r, x.g * y.g, x.b * y.b⟩

/-- Modelled from the spec: black. -/
def Color.black : Color := ⟨0, 0, 0⟩

/-- distance from calculate.rs. -/
def distance (p q : Point) : ℝ :=
  Real.sqrt ((p.1 - q.1) * (p.1 - q.1) + (p.2 - q.2) * (p.2 - q.2))

/-- DirectionalLight::intersect from shapes.rs. -/
def dlightIntersect (dst nx ny : ℝ) (p d : Point) : List Intersection :=
  let c := d.1 * nx + d.2 * ny
  if c < EPSILON then []
  else
    let a := Real.sqrt (d.1 * d.1 + d.2 * d.2)
    let b := Real.sqrt (nx * nx + ny * ny)
    let t := Real.arccos (c / (a * b))
    if |t| < 9 / 100 then
      [⟨(p.1 + dst * d.1 / a, p.2 + dst * d.2 / a), (nx, ny)⟩]
    else []

/-- Circle::intersect from shapes.rs: solve the ray-circle quadratic,
push the root t1 and then t2 whenever each exceeds EPSILON. -/
def circleIntersect (cx cy r : ℝ) (p d : Point) : List Intersection :=
  let a := d.1 * d.1 + d.2 * d.2
  let ocx := p.1 - cx
  let ocy := p.2 - cy
  let b := 2 * (ocx * d.1 + ocy * d.2)
  let c := ocx * ocx + ocy * ocy - r * r
  let delta := b * b - 4 * a * c
  if delta < 0 then []
  else
    let t1 := (-b - Real.sqrt delta) / (2 * a)
    let t2 := (-b + Real.sqrt delta) / (2 * a)
    (if EPSILON < t1 then
      let x := p.1 + d.1 * t1
      let y := p.2 + d.2 * t1
      let nx := x - cx
      let ny := y - cy
      let len := Real.sqrt (nx * nx + ny * ny)
      [⟨(x, y), (nx / len, ny / len)⟩]
    else []) ++
    (if EPSILON < t2 then
      let x := p.1 + d.1 * t2
      let y := p.2 + d.2 * t2
      let nx := x - cx
      let ny := y - cy
      let len := Real.sqrt (nx * nx + ny * ny)
      [⟨(x, y), (nx / len, ny / len)⟩]
    else [])

/-- Circle::is_inside from shapes.rs: strict inequality against the squared radius. -/
def circleInside (cx cy r : ℝ) (p : Point) : Bool :=
  decide ((p.1 - cx) * (p.1 - cx) + (p.2 - cy) * (p.2 - cy) < r * r)

/-- Plane::intersect from shapes.rs. -/
def planeIntersect (qx qy nx ny : ℝ) (p d : Point) : List Intersection :=
  let a := d.1 * nx + d.2 * ny
  if |a| < EPSILON then []
  else
    let b := (qx - p.1) * nx + (qy - p.2) * ny
    let t := b / a
    if EPSILON < t then [⟨(p.1 + d.1 * t, p.2 + d.2 * t), (nx, ny)⟩] else []

/-- Plane::is_inside from shapes.rs. -/
def planeInside (qx qy nx ny : ℝ) (p : Point) : Bool :=
  decide ((p.1 - qx) * nx + (p.2 - qy) * ny < 0)

/-- Polygon::intersect from shapes.rs: per edge, a cross-product sign test then
the line-intersection parameter, guarded by EPSILON. -/
def polyIntersect (pts : List Point) (p d : Point) : List Intersection :=
  (List.range pts.length).flatMap (fun i =>
    let a := pts.getD i (0, 0)
    let b := if i + 1 = pts.length then pts.getD 0 (0, 0) else pts.getD (i + 1) (0, 0)
    let product1 := (a.1 - p.1) * d.2 - d.1 * (a.2 - p.2)
    let product2 := (b.1 - p.1) * d.2 - d.1 * (b.2 - p.2)
    if product1 * product2 < 0 then
      let nx0 := a.2 - b.2
      let ny0 := b.1 - a.1
      let len := Real.sqrt (nx0 * nx0 + ny0 * ny0)
      let nx := nx0 / len
      let ny := ny0 / len
      let c1 := d.1 * nx + d.2 * ny
      if EPSILON < |c1| then
        let c2 := (a.1 - p.1) * nx + (a.2 - p.2) * ny
        let t := c2 / c1
        if EPSILON < t then [⟨(p.1 + d.1 * t, p.2 + d.2 * t), (nx, ny)⟩] else []
      else []
    else [])

/-- Polygon::is_inside from shapes.rs: even-odd crossing count over the edges. -/
def polyInside (pts : List Point) (px py : ℝ) : Bool :=
  ((List.range pts.length).countP (fun i =>
    let p0 := pts.getD i (0, 0)
    let j := if pts.length ≤ i + 1 then 0 else i + 1
    let p1 := pts.getD j (0, 0)
    if |p1.1 - p0.1| < EPSILON then
      decide (¬ ((px - p0.1) * (px - p1.1) > 0))
    else
      let slope := (p1.2 - p0.2) / (p1.1 - p0.1)
      decide (((p0.1 ≤ px ∧ px < p1.1) ∨ (p1.1 ≤ px ∧ px < p0.1)) ∧
        py < slope * (px - p0.1) + p0.2))) % 2 != 0

/-- The Shape trait of shapes.rs as a closed variant tree: the four primitive
implementations plus the three CSG combinators. -/
inductive Shape where
  | dlight (d nx ny : ℝ)
  | circle (cx cy r : ℝ)
  | plane (px py nx ny : ℝ)
  | polygon (pts : List Point)
  | union (c : List Shape)
  | inter (c : List Shape)
  | complement (a : Shape)

mutual

/-- Shape::intersect, dispatching over the variants.  UnionShape and
IntersectShape (shapes.rs) special-case 0 and 1 children, and otherwise loop
i over 0..length, keeping the hits of child i according to the is_inside results of
the other siblings (all-not-inside for union, all-inside for intersect).
ComplementShape returns the hits of the child with normals negated. -/
def Shape.intersect : Shape → Point → Point → List Intersection
  | Shape.dlight dst nx ny, p, d => dlightIntersect dst nx ny p d
  | Shape.circle cx cy r, p, d => circleIntersect cx cy r p d
  | Shape.plane qx qy nx ny, p, d => planeIntersect qx qy nx ny p d
  | Shape.polygon pts, p, d => polyIntersect pts p d
  | Shape.union [], _, _ => []
  | Shape.union [s], p, d => Shape.intersect s p d
  | Shape.union (s1 :: s2 :: rest), p, d =>
    let cs := s1 :: s2 :: rest
    let hitss := intersectList cs p d
    (List.range cs.length).flatMap (fun i =>
      (hitss.getD i []).filter (fun it =>
        ((insideList cs it.point).eraseIdx i).all (fun x => !x)))
  | Shape.inter [], _, _ => []
  | Shape.inter [s], p, d => Shape.intersect s p d
  | Shape.inter (s1 :: s2 :: rest), p, d =>
    let cs := s1 :: s2 :: rest
    let hitss := intersectList cs p d
    (List.range cs.length).flatMap (fun i =>
      (hitss.getD i []).filter (fun it =>
        ((insideList cs it.point).eraseIdx i).all (fun x => x)))
  | Shape.complement a, p, d =>
    (Shape.intersect a p d).foldl
      (fun acc it => acc ++ [⟨it.point, (-it.normal.1, -it.normal.2)⟩]) []

/-- Shape::is_inside, dispatching over the variants.  The union and intersect
folds mirror the for_each accumulator loops of shapes.rs. -/
def Shape.is_inside : Shape → Point → Bool
  | Shape.dlight _ _ _, _ => false
  | Shape.circle cx cy r, p => circleInside cx cy r p
  | Shape.plane qx qy nx ny, p => planeInside qx qy nx ny p
  | Shape.polygon pts, p => polyInside pts p.1 p.2
  | Shape.union c, p =>
    (insideList c p).foldl (fun res x => if x then true else res) false
  | Shape.inter c, p =>
    (insideList c p).foldl (fun res x => if !x then false else res) true
  | Shape.complement a, p => !(Shape.is_inside a p)

/-- The is_inside results of a list of child shapes, in order. -/
def insideList : List Shape → Point → List Bool
  | [], _ => []
  | s :: rest, p => Shape.is_inside s p :: insideList rest p

/-- The intersect results of a list of child shapes, in order. -/
def intersectList : List Shape → Point → Point → List (List Intersection)
  | [], _, _ => []
  | s :: rest, p, d => Shape.intersect s p d :: intersectList rest p d

end

/-- WHOLE_ANGLE from shapes.rs. -/
def WHOLE_ANGLE : ℝ := 360

/-- Models the two elevation-normalization while loops of shapes.rs
(add 360 while negative, subtract 360 while at least 360): the reduction of
e into [0, 360) modulo 360. -/
def emod360 (e : ℝ) : ℝ := e - WHOLE_ANGLE * ⌊e / WHOLE_ANGLE⌋

/-- Polygon::new from shapes.rs: panics unless more than one point is given;
the panic is modelled by none. -/
def Polygon.new (p : List Point) : Option (List Point) :=
  if 1 < p.length then some p else none

/-- The vertex list computed by Polygon::star from shapes.rs for the accepted
parameters: 2n vertices alternating outer radius r and the scaled inner radius. -/
def starVertices (cx cy r : ℝ) (n : ℕ) (e : ℝ) : List Point :=
  let elevation := emod360 e
  let co := Real.cos (Real.pi / n)
  let sr := (co * co * 2 - 1) / co
  (List.range (2 * n)).map (fun (i : ℕ) =>
    let theta := (i : ℝ) * Real.pi / n + 2 * Real.pi * elevation / WHOLE_ANGLE
    let l := if i % 2 = 1 then r * sr else r
    (cx + l * Real.cos theta, cy - l * Real.sin theta))

/-- Polygon::star from shapes.rs: asserts n >= 5 (modelled by none), then
builds the 2n star vertices through Polygon::new. -/
def Polygon.star (cx cy r : ℝ) (n : ℕ) (e : ℝ) : Option (List Point) :=
  if n < 5 then none else Polygon.new (starVertices cx cy r n e)

/-- EntityIntersection from render.rs: a hit annotated with the material of
the entity it came from. -/
structure EntityIntersection where
  point : Point
  normal : Point
  emissive : Color
  reflectivity : ℝ
  eta : ℝ
  absorption : Color

/-- Entity from render.rs: one shape tree plus material properties. -/
structure Entity where
  shape : Shape
  emissive : Color
  reflectivity : ℝ
  eta : ℝ
  absorption : Color

/-- Entity::intersect from render.rs: annotate each shape hit with the
material of the entity. -/
def Entity.intersect (e : Entity) (p d : Point) : List EntityIntersection :=
  (e.shape.intersect p d).map (fun it =>
    ⟨it.point, it.normal, e.emissive, e.reflectivity, e.eta, e.absorption⟩)

/-- Scene from render.rs. -/
structure Scene where
  entities : List Entity

/-- One step of the nearest-hit accumulation in Scene::intersect (render.rs):
replace the current best only when its distance is strictly greater than that of the candidate. -/
def sceneStep (p : Point) (res : Option EntityIntersection)
    (item : EntityIntersection) : Option EntityIntersection :=
  match res with
  | some r => if distance p r.point > distance p item.point then some item else some r
  | none => some item

/-- Scene::intersect from render.rs: fold the nearest-hit step over the hits of
every entity, entities in order, the hits of each entity in order. -/
def Scene.intersect (s : Scene) (p d : Point) : Option EntityIntersection :=
  s.entities.foldl (fun res e => (e.intersect p d).foldl (sceneStep p) res) none

/-- All hits the Scene::intersect loops enumerate, in enumeration order. -/
def sceneHits (s : Scene) (p d : Point) : List EntityIntersection :=
  (s.entities.map (fun e => e.intersect p d)).flatten

/-- reflect from render.rs. -/
def reflect (ix iy nx ny : ℝ) : ℝ × ℝ :=
  let dot2 := (ix * nx + iy * ny) * 2
  (ix - dot2 * nx, iy - dot2 * ny)

/-- refract from render.rs: none encodes total internal reflection (k < 0). -/
def refract (ix iy nx ny eta : ℝ) : Option (ℝ × ℝ) :=
  let dot := ix * nx + iy * ny
  let k := 1 - eta * eta * (1 - dot * dot)
  if k < 0 then none
  else
    let a := eta * dot + Real.sqrt k
    some (eta * ix - a * nx, eta * iy - a * ny)

/-- schlick from render.rs. -/
def schlick (cosi cost etai etat : ℝ) : ℝ :=
  let r0 := (etai - etat) / (etai + etat)
  let r1 := r0 * r0
  let a := if etai < etat then 1 - cosi else 1 - cost
  let aa := a * a
  r1 + (1 - r1) * aa * aa * a

/-- beer_lambert from render.rs: per-channel exponential attenuation. -/
def beer_lambert (a : Color) (d : ℝ) : Color :=
  ⟨Real.exp (-a.r * d), Real.exp (-a.g * d), Real.exp (-a.b * d)⟩

/-- The body of trace from render.rs, with the recursive calls abstracted as
rec: on a hit, accumulate the emissive color; when depth > 0 and the material
is reflective or refractive, add the transmitted branch (Snell refraction with
Schlick reflectance, or forced reflectivity 1 on total internal reflection)
and the reflected branch; finally attenuate by Beer-Lambert when the ray hit
the boundary from inside (sign < 0). -/
def traceBody (scene : Scene) (rec : ℝ → ℝ → ℝ → ℝ → Color)
    (ox oy dx dy : ℝ) (depth : ℕ) : Color :=
  match Scene.intersect scene (ox, oy) (dx, dy) with
  | none => Color.black
  | some r =>
    let sign : ℝ := if r.normal.1 * dx + r.normal.2 * dy < 0 then 1 else -1
    let sum0 := r.emissive
    let sum2 :=
      if 0 < depth ∧ (0 < r.reflectivity ∨ 0 < r.eta) then
        let x := r.point.1
        let y := r.point.2
        let nx := r.normal.1 * sign
        let ny := r.normal.2 * sign
        let st :=
          if 0 < r.eta then
            let eta := if sign < 0 then r.eta else 1 / r.eta
            match refract dx dy nx ny eta with
            | some (rx, ry) =>
              let cosi := -(dx * nx + dy * ny)
              let cost := -(rx * nx + ry * ny)
              let refl := if sign < 0 then schlick cosi cost r.eta 1
                          else schlick cosi cost 1 r.eta
              (refl, Color.add sum0 (Color.scale (rec x y rx ry) (1 - refl)))
            | none => ((1 : ℝ), sum0)
          else (r.reflectivity, sum0)
        if 0 < st.1 then
          let rr := reflect dx dy nx ny
          Color.add st.2 (Color.scale (rec x y rr.1 rr.2) st.1)
        else st.2
      else sum0
    if sign < 0 then
      Color.mul sum2 (beer_lambert r.absorption (distance (ox, oy) r.point))
    else sum2

/-- trace from render.rs, by structural recursion on the depth counter: each
recursive branch runs at depth - 1 and only when depth > 0. -/
def traceN (scene : Scene) : ℕ → ℝ → ℝ → ℝ → ℝ → Color
  | 0, ox, oy, dx, dy =>
    traceBody scene (fun _ _ _ _ => Color.black) ox oy dx dy 0
  | n + 1, ox, oy, dx, dy =>
    traceBody scene (fun x y rx ry => traceN scene n x y rx ry) ox oy dx dy (n + 1)

/-- trace from render.rs with the argument order of the source. -/
def trace (scene : Scene) (ox oy dx dy : ℝ) (depth : ℕ) : Color :=
  traceN scene depth ox oy dx dy

/-- Reformulation of the union filter following the words of the spec: for each
child keep its hits whose point is not inside any other sibling. -/
def unionSpecIntersect (c : List Shape) (p d : Point) : List Intersection :=
  (List.range c.length).flatMap (fun i =>
    ((c.getD i (Shape.union [])).intersect p d).filter (fun it =>
      decide (∀ j, j < c.length → j ≠ i →
        (c.getD j (Shape.union [])).is_inside it.point = false)))

/-- Concrete scene for witnesses: one reflective circle entity. -/
def w1e : Entity := ⟨Shape.circle 0 0 1, ⟨2, 3, 4⟩, 1 / 2, 0, ⟨5, 6, 7⟩⟩

/-- Scene holding w1e. -/
def w1s : Scene := ⟨[w1e]⟩

/-- The nearest hit of w1s for the ray from (-2,0) in direction (1,0). -/
def w1hit : EntityIntersection := ⟨(-1, 0), (-1, 0), ⟨2, 3, 4⟩, 1 / 2, 0, ⟨5, 6, 7⟩⟩

/-- Concrete scene: a refractive absorptive circle entity around the origin. -/
def c1e : Entity := ⟨Shape.circle 0 0 1, ⟨1, 1, 1⟩, 0, 3 / 2, ⟨1, 1, 1⟩⟩

/-- Scene holding c1e. -/
def c1s : Scene := ⟨[c1e]⟩

/-- The nearest hit of c1s for the ray from (0,0) in direction (1,0). -/
def c1hit : EntityIntersection := ⟨(1, 0), (1, 0), ⟨1, 1, 1⟩, 0, 3 / 2, ⟨1, 1, 1⟩⟩

/-- Concrete entity: a vertical plane through (2,0). -/
def w2a : Entity := ⟨Shape.plane 2 0 1 0, ⟨1, 0, 0⟩, 0, 0, ⟨0, 0, 0⟩⟩

/-- Concrete entity: a vertical plane through (1,0). -/
def w2b : Entity := ⟨Shape.plane 1 0 1 0, ⟨0, 1, 0⟩, 0, 0, ⟨0, 0, 0⟩⟩

/-- Scene with two plane entities, the farther one listed first. -/
def w2s : Scene := ⟨[w2a, w2b]⟩

/-- The hit of w2a for the ray from the origin in direction (1,0). -/
def w2hitA : EntityIntersection := ⟨(2, 0), (1, 0), ⟨1, 0, 0⟩, 0, 0, ⟨0, 0, 0⟩⟩

/-- The hit of w2b for the ray from the origin in direction (1,0). -/
def w2hitB : EntityIntersection := ⟨(1, 0), (1, 0), ⟨0, 1, 0⟩, 0, 0, ⟨0, 0, 0⟩⟩

/-- Concrete scene: a refractive plane entity producing total internal
reflection for the ray from the origin in direction (1, 1/2). -/
def w4e : Entity := ⟨Shape.plane 0 10 0 1, ⟨1, 0, 0⟩, 0, 2, ⟨0, 0, 0⟩⟩

/-- Scene holding w4e. -/
def w4s : Scene := ⟨[w4e]⟩

/-- The hit of w4s for the ray from the origin in direction (1, 1/2). -/
def w4hit : EntityIntersection := ⟨(20, 10), (0, 1), ⟨1, 0, 0⟩, 0, 2, ⟨0, 0, 0⟩⟩

theorem foldl_push_eq_map {α β : Type} (f : α → β) :
    ∀ (l : List α) (acc : List β),
      l.foldl (fun a it => a ++ [f it]) acc = acc ++ l.map f := by
  intro l
  induction l with
  | nil => intro acc; simp
  | cons x xs ih => intro acc; simp [ih]

theorem foldl_or_eq_any :
    ∀ (l : List Bool) (b : Bool),
      l.foldl (fun res x => if x then true else res) b = (b || l.any id) := by
  intro l
  induction l with
  | nil => intro b; simp
  | cons x xs ih =>
    intro b
    rw [List.foldl_cons, ih]
    cases x <;> simp

theorem foldl_and_eq_all :
    ∀ (l : List Bool) (b : Bool),
      l.foldl (fun res x => if !x then false else res) b = (b && l.all id) := by
  intro l
  induction l with
  | nil => intro b; simp
  | cons x xs ih =>
    intro b
    rw [List.foldl_cons, ih]
    cases x <;> simp

theorem insideList_eq_map (c : List Shape) (q : Point) :
    insideList c q = c.map (fun s => s.is_inside q) := by
  induction c with
  | nil => simp [insideList]
  | cons s rest ih => simp [insideList, ih]

theorem intersectList_eq_map (c : List Shape) (p d : Point) :
    intersectList c p d = c.map (fun s => s.intersect p d) := by
  induction c with
  | nil => simp [intersectList]
  | cons s rest ih => simp [intersectList, ih]

theorem sqrt_four : Real.sqrt 4 = 2 := by
  rw [show (4 : ℝ) = 2 * 2 by norm_num, Real.sqrt_mul_self (by norm_num : (0 : ℝ) ≤ 2)]

theorem sqrt_nine : Real.sqrt 9 = 3 := by
  rw [show (9 : ℝ) = 3 * 3 by norm_num, Real.sqrt_mul_self (by norm_num : (0 : ℝ) ≤ 3)]

theorem traceBody_zero_rec (scene : Scene) (r1 r2 : ℝ → ℝ → ℝ → ℝ → Color)
    (ox oy dx dy : ℝ) :
    traceBody scene r1 ox oy dx dy 0 = traceBody scene r2 ox oy dx dy 0 := by
  unfold traceBody
  cases Scene.intersect scene (ox, oy) (dx, dy) with
  | none => rfl
  | some r => simp

theorem traceN_unfold (scene : Scene) (n : ℕ) (ox oy dx dy : ℝ) :
    traceN scene n ox oy dx dy =
      traceBody scene (fun x y rx ry => traceN scene (n - 1) x y rx ry) ox oy dx dy n := by
  cases n with
  | zero => exact traceBody_zero_rec scene _ _ ox oy dx dy
  | succ m => rfl

theorem all_eraseIdx_iff (l : List Bool) (i : ℕ) (q : Bool → Bool) :
    ((l.eraseIdx i).all q = true) ↔
      (∀ j, j < l.length → j ≠ i → q (l.getD j false) = true) := by
  rw [List.all_eq_true]
  constructor
  · intro h j hj hne
    apply h
    rw [List.mem_eraseIdx_iff_getElem]
    exact ⟨j, hj, hne, (List.getD_eq_getElem l false hj).symm⟩
  · intro h x hx
    rw [List.mem_eraseIdx_iff_getElem] at hx
    obtain ⟨j, hj, hne, hx⟩ := hx
    have hq := h j hj hne
    rw [List.getD_eq_getElem l false hj] at hq
    rw [← hx]
    exact hq

theorem flatMap_congr_mem {α β : Type} :
    ∀ (l : List α) (f g : α → List β), (∀ x ∈ l, f x = g x) →
      l.flatMap f = l.flatMap g := by
  intro l
  induction l with
  | nil => intro f g _; simp
  | cons x xs ih =>
    intro f g h
    simp only [List.flatMap_cons]
    rw [h x (List.mem_cons_self x xs), ih f g (fun y hy => h y (List.mem_cons_of_mem x hy))]

theorem insideList_length (c : List Shape) (q : Point) :
    (insideList c q).length = c.length := by
  rw [insideList_eq_map, List.length_map]

theorem insideList_getD (c : List Shape) (q : Point) (j : ℕ) (hj : j < c.length) :
    (insideList c q).getD j false = (c.getD j (Shape.union [])).is_inside q := by
  rw [insideList_eq_map, List.getD_eq_getElem _ _ (by simpa using hj),
    List.getElem_map, List.getD_eq_getElem _ _ hj]

theorem intersectList_getD (c : List Shape) (p d : Point) (i : ℕ) (hi : i < c.length) :
    (intersectList c p d).getD i [] = (c.getD i (Shape.union [])).intersect p d := by
  rw [intersectList_eq_map, List.getD_eq_getElem _ _ (by simpa using hi),
    List.getElem_map, List.getD_eq_getElem _ _ hi]

theorem union_filter_cond_eq (c : List Shape) (q : Point) (i : ℕ) :
    ((insideList c q).eraseIdx i).all (fun x => !x) =
      decide (∀ j, j < c.length → j ≠ i →
        (c.getD j (Shape.union [])).is_inside q = false) := by
  have hiff : (((insideList c q).eraseIdx i).all (fun x => !x) = true) ↔
      (∀ j, j < c.length → j ≠ i → (c.getD j (Shape.union [])).is_inside q = false) := by
    rw [all_eraseIdx_iff]
    constructor
    · intro h j hj hne
      have hj2 : j < (insideList c q).length := by rw [insideList_length]; exact hj
      have hx := h j hj2 hne
      rw [insideList_getD c q j hj] at hx
      simpa using hx
    · intro h j hj hne
      rw [insideList_length] at hj
      rw [insideList_getD c q j hj, h j hj hne]
      rfl
  cases hb : (((insideList c q).eraseIdx i).all (fun x => !x)) with
  | false =>
    symm
    apply decide_eq_false
    intro hP
    have hx := hiff.mpr hP
    rw [hb] at hx
    exact Bool.false_ne_true hx
  | true =>
    symm
    exact decide_eq_true (hiff.mp hb)

theorem union_intersect_eq_spec (c : List Shape) (p d : Point) (h2 : 2 ≤ c.length) :
    Shape.intersect (Shape.union c) p d = unionSpecIntersect c p d := by
  match c, h2 with
  | s1 :: s2 :: rest, _ =>
    simp only [Shape.intersect, unionSpecIntersect]
    apply flatMap_congr_mem
    intro i hi
    rw [List.mem_range] at hi
    rw [intersectList_getD _ p d i hi]
    apply List.filter_congr
    intro it _
    rw [union_filter_cond_eq]

/-- C3: for a UnionShape with at least two children, intersect returns exactly
those hits of each child whose point is not inside any other sibling; with
exactly one child it returns the hits of that child unfiltered; and is_inside
is the logical OR of the is_inside results of the children. -/
theorem union_shape_spec (c : List Shape) (s : Shape) (p d q : Point) :
    (2 ≤ c.length → Shape.intersect (Shape.union c) p d = unionSpecIntersect c p d) ∧
    (Shape.intersect (Shape.union [s]) p d = Shape.intersect s p d) ∧
    (Shape.is_inside (Shape.union c) q = true ↔ ∃ t ∈ c, Shape.is_inside t q = true) := by
  refine ⟨fun h2 => union_intersect_eq_spec c p d h2, ?_, ?_⟩
  · simp only [Shape.intersect]
  · simp only [Shape.is_inside]
    rw [foldl_or_eq_any, insideList_eq_map]
    simp [List.any_eq_true]

/-- C3 witness: the two-circle union instance, discharging the two-children
hypothesis. -/
theorem union_shape_spec_witness :
    Shape.intersect (Shape.union [Shape.circle 0 0 1, Shape.circle 1 0 1]) (-2, 0) (1, 0) =
      unionSpecIntersect [Shape.circle 0 0 1, Shape.circle 1 0 1] (-2, 0) (1, 0) :=
  (union_shape_spec [Shape.circle 0 0 1, Shape.circle 1 0 1] (Shape.circle 0 0 1)
    (-2, 0) (1, 0) (0, 0)).1 (by simp)

/-- C5: ComplementShape negates is_inside, and intersect returns the hits of the
child in order with the same points and both normal components negated. -/
theorem complement_shape_spec (s : Shape) (p d q : Point) :
    Shape.is_inside (Shape.complement s) q = !(Shape.is_inside s q) ∧
    Shape.intersect (Shape.complement s) p d =
      (Shape.intersect s p d).map (fun it => ⟨it.point, (-it.normal.1, -it.normal.2)⟩) := by
  constructor
  · simp only [Shape.is_inside]
  · simp only [Shape.intersect]
    rw [foldl_push_eq_map]
    simp

/-- C9: an IntersectShape with no children is inside everywhere yet yields no
hits; a UnionShape with no children is inside nowhere and yields no hits. -/
theorem empty_csg_defaults (p d q : Point) :
    Shape.is_inside (Shape.inter []) q = true ∧
    Shape.intersect (Shape.inter []) p d = [] ∧
    Shape.is_inside (Shape.union []) q = false ∧
    Shape.intersect (Shape.union []) p d = [] := by
  refine ⟨?_, ?_, ?_, ?_⟩ <;>
    simp only [Shape.is_inside, Shape.intersect, insideList, List.foldl_nil]

/-- C10: Circle::is_inside is strict, so a point at distance at least the
radius from the center is outside; consequently the union filter keeps a
sibling hit whose point lies exactly on the boundary of the circle. -/
theorem circle_boundary_treated_outside (cx cy r px py : ℝ)
    (h : r * r ≤ (px - cx) * (px - cx) + (py - cy) * (py - cy)) :
    Shape.is_inside (Shape.circle cx cy r) (px, py) = false ∧
    ∀ (s : Shape) (p d : Point) (it : Intersection),
      it ∈ Shape.intersect s p d → it.point = (px, py) →
      it ∈ Shape.intersect (Shape.union [s, Shape.circle cx cy r]) p d := by
  have hin : Shape.is_inside (Shape.circle cx cy r) (px, py) = false := by
    simp only [Shape.is_inside, circleInside]
    apply decide_eq_false
    exact not_lt.mpr h
  refine ⟨hin, ?_⟩
  intro s p d it hmem hpt
  rw [union_intersect_eq_spec _ p d (by simp)]
  unfold unionSpecIntersect
  rw [List.mem_flatMap]
  refine ⟨0, by simp, ?_⟩
  rw [List.mem_filter]
  constructor
  · simpa using hmem
  · apply decide_eq_true
    intro j hj hne
    have hj1 : j = 1 := by
      simp only [List.length_cons, List.length_nil] at hj
      omega
    subst hj1
    simpa [hpt] using hin

/-- C10 witness: the point (1,0) on the boundary of the unit circle is outside it,
and a plane hit exactly there survives the union filter. -/
theorem circle_boundary_witness :
    Shape.is_inside (Shape.circle 0 0 1) (1, 0) = false ∧
    (⟨(1, 0), (1, 0)⟩ : Intersection) ∈
      Shape.intersect (Shape.union [Shape.plane 1 0 1 0, Shape.circle 0 0 1]) (0, 0) (1, 0) := by
  have h := circle_boundary_treated_outside 0 0 1 1 0 (by norm_num)
  refine ⟨h.1, ?_⟩
  apply h.2 (Shape.plane 1 0 1 0) (0, 0) (1, 0) ⟨(1, 0), (1, 0)⟩ ?_ rfl
  simp only [Shape.intersect, planeIntersect]
  norm_num [EPSILON]

/-- C8: Polygon::new fails exactly when fewer than 2 points are given and
otherwise returns the given vertices; Polygon::star fails exactly when n < 5
and otherwise returns the 2n computed star vertices. -/
theorem polygon_construction (p : List Point) (cx cy r e : ℝ) (n : ℕ) :
    (Polygon.new p = none ↔ p.length < 2) ∧
    (2 ≤ p.length → Polygon.new p = some p) ∧
    (Polygon.star cx cy r n e = none ↔ n < 5) ∧
    (5 ≤ n → Polygon.star cx cy r n e = some (starVertices cx cy r n e)) := by
  have hlen : (starVertices cx cy r n e).length = 2 * n := by
    unfold starVertices
    rw [List.length_map, List.length_range]
  have hnew : ∀ q : List Point, Polygon.new q = none ↔ q.length < 2 := by
    intro q
    unfold Polygon.new
    split_ifs with h
    · simp
      omega
    · simp
      omega
  refine ⟨hnew p, ?_, ?_, ?_⟩
  · intro h2
    unfold Polygon.new
    rw [if_pos (by omega)]
  · unfold Polygon.star
    split_ifs with h
    · simp [h]
    · rw [hnew, hlen]
      omega
  · intro h5
    unfold Polygon.star
    rw [if_neg (by omega)]
    unfold Polygon.new
    rw [if_pos (by rw [hlen]; omega)]

/-- C8 witness: a 2-point polygon builds, a 4-point star fails, a 5-point
star builds. -/
theorem polygon_construction_witness :
    Polygon.new [((0 : ℝ), (0 : ℝ)), (1, 0)] = some [((0 : ℝ), (0 : ℝ)), (1, 0)] ∧
    Polygon.star 0 0 1 4 0 = none ∧
    Polygon.star 0 0 1 5 0 = some (starVertices 0 0 1 5 0) := by
  refine ⟨?_, ?_, ?_⟩
  · exact (polygon_construction [((0 : ℝ), (0 : ℝ)), (1, 0)] 0 0 1 0 5).2.1 (by simp)
  · exact (polygon_construction [] 0 0 1 0 4).2.2.1.mpr (by norm_num)
  · exact (polygon_construction [] 0 0 1 0 5).2.2.2 (by norm_num)

theorem sceneIntersect_eq_foldl (s : Scene) (p d : Point) :
    Scene.intersect s p d = (sceneHits s p d).foldl (sceneStep p) none := by
  unfold Scene.intersect sceneHits
  rw [List.foldl_flatten, List.foldl_map]

theorem foldl_sceneStep_some (p : Point) :
    ∀ (xs : List EntityIntersection) (r0 : EntityIntersection),
      ∃ res, xs.foldl (sceneStep p) (some r0) = some res ∧
        ((res = r0 ∧ ∀ h ∈ xs, distance p res.point ≤ distance p h.point) ∨
         (∃ l1 l2, xs = l1 ++ res :: l2 ∧ distance p res.point < distance p r0.point ∧
           (∀ h ∈ l1, distance p res.point < distance p h.point) ∧
           (∀ h ∈ l2, distance p res.point ≤ distance p h.point))) := by
  intro xs
  induction xs with
  | nil => intro r0; exact ⟨r0, rfl, Or.inl ⟨rfl, by simp⟩⟩
  | cons x xs ih =>
    intro r0
    rw [List.foldl_cons]
    by_cases hc : distance p r0.point > distance p x.point
    · have hstep : sceneStep p (some r0) x = some x := if_pos hc
      rw [hstep]
      obtain ⟨res, hres, hcase⟩ := ih x
      refine ⟨res, hres, Or.inr ?_⟩
      rcases hcase with ⟨heq, hall⟩ | ⟨l1, l2, hdec, hlt, hl1, hl2⟩
      · subst heq
        exact ⟨[], xs, rfl, hc, by simp, hall⟩
      · refine ⟨x :: l1, l2, by rw [hdec]; rfl, lt_trans hlt hc, ?_, hl2⟩
        intro h hh
        rcases List.mem_cons.mp hh with h1 | h2
        · rw [h1]; exact hlt
        · exact hl1 h h2
    · have hstep : sceneStep p (some r0) x = some r0 := if_neg hc
      rw [hstep]
      obtain ⟨res, hres, hcase⟩ := ih r0
      refine ⟨res, hres, ?_⟩
      rcases hcase with ⟨heq, hall⟩ | ⟨l1, l2, hdec, hlt, hl1, hl2⟩
      · subst heq
        left
        refine ⟨rfl, ?_⟩
        intro h hh
        rcases List.mem_cons.mp hh with h1 | h2
        · rw [h1]; exact not_lt.mp hc
        · exact hall h h2
      · right
        refine ⟨x :: l1, l2, by rw [hdec]; rfl, hlt, ?_, hl2⟩
        intro h hh
        rcases List.mem_cons.mp hh with h1 | h2
        · rw [h1]; exact lt_of_lt_of_le hlt (not_lt.mp hc)
        · exact hl1 h h2

/-- C2: Scene::intersect is none exactly when no entity hit exists, and
otherwise returns a hit of minimal distance from the ray origin; on exact
distance ties the hit found first (entities in order, then the hits of each
entity in order) is kept, since the best is replaced only on strictly greater
distance. -/
theorem scene_intersect_nearest (s : Scene) (p d : Point) :
    (Scene.intersect s p d = none ↔ sceneHits s p d = []) ∧
    (∀ r, Scene.intersect s p d = some r →
      (∀ h ∈ sceneHits s p d, distance p r.point ≤ distance p h.point) ∧
      ∃ l1 l2, sceneHits s p d = l1 ++ r :: l2 ∧
        (∀ h ∈ l1, distance p r.point < distance p h.point) ∧
        (∀ h ∈ l2, distance p r.point ≤ distance p h.point)) := by
  rw [sceneIntersect_eq_foldl]
  cases hx : sceneHits s p d with
  | nil => simp
  | cons x xs =>
    constructor
    · constructor
      · intro hnone
        obtain ⟨res, hres, _⟩ := foldl_sceneStep_some p xs x
        rw [List.foldl_cons] at hnone
        rw [show sceneStep p none x = some x from rfl, hres] at hnone
        exact absurd hnone (by simp)
      · intro h
        exact absurd h (by simp)
    · intro r hr
      rw [List.foldl_cons, show sceneStep p none x = some x from rfl] at hr
      obtain ⟨res, hres, hcase⟩ := foldl_sceneStep_some p xs x
      rw [hres] at hr
      have hreq : res = r := Option.some.inj hr
      subst hreq
      rcases hcase with ⟨heq, hall⟩ | ⟨l1, l2, hdec, hlt, hl1, hl2⟩
      · subst heq
        constructor
        · intro h hh
          rcases List.mem_cons.mp hh with h1 | h2
          · rw [h1]
          · exact hall h h2
        · exact ⟨[], xs, rfl, by simp, hall⟩
      · constructor
        · intro h hh
          rcases List.mem_cons.mp hh with h1 | h2
          · rw [h1]; exact le_of_lt hlt
          · rw [hdec] at h2
            rcases List.mem_append.mp h2 with hL | hR
            · exact le_of_lt (hl1 h hL)
            · rcases List.mem_cons.mp hR with h3 | h4
              · rw [h3]
              · exact hl2 h h4
        · refine ⟨x :: l1, l2, by rw [hdec]; rfl, ?_, hl2⟩
          intro h hh
          rcases List.mem_cons.mp hh with h1 | h2
          · rw [h1]; exact hlt
          · exact hl1 h h2

/-- C2 witness: in the two-plane scene the nearer hit is returned, and its
distance is at most that of the farther hit. -/
theorem scene_intersect_nearest_witness :
    distance (0, 0) w2hitB.point ≤ distance (0, 0) w2hitA.point := by
  have ha : Entity.intersect w2a (0, 0) (1, 0) = [w2hitA] := by
    unfold Entity.intersect w2a w2hitA
    simp only [Shape.intersect]
    unfold planeIntersect
    norm_num [EPSILON]
  have hb : Entity.intersect w2b (0, 0) (1, 0) = [w2hitB] := by
    unfold Entity.intersect w2b w2hitB
    simp only [Shape.intersect]
    unfold planeIntersect
    norm_num [EPSILON]
  have hda : distance (0, 0) w2hitA.point = 2 := by
    show distance (0, 0) ((2 : ℝ), (0 : ℝ)) = 2
    unfold distance
    norm_num
    exact sqrt_four
  have hdb : distance (0, 0) w2hitB.point = 1 := by
    show distance (0, 0) ((1 : ℝ), (0 : ℝ)) = 1
    unfold distance
    norm_num
  have hd : distance (0, 0) w2hitA.point > distance (0, 0) w2hitB.point := by
    rw [hda, hdb]; norm_num
  have heval : Scene.intersect w2s (0, 0) (1, 0) = some w2hitB := by
    unfold Scene.intersect
    rw [show w2s.entities = [w2a, w2b] from rfl]
    rw [List.foldl_cons, List.foldl_cons, List.foldl_nil, ha, hb]
    rw [List.foldl_cons, List.foldl_nil, List.foldl_cons, List.foldl_nil]
    rw [show sceneStep (0, 0) none w2hitA = some w2hitA from rfl]
    exact if_pos hd
  have hmem : w2hitA ∈ sceneHits w2s (0, 0) (1, 0) := by
    unfold sceneHits
    rw [show w2s.entities = [w2a, w2b] from rfl]
    rw [List.map_cons, List.map_cons, List.map_nil, ha, hb]
    simp
  exact ((scene_intersect_nearest w2s (0, 0) (1, 0)).2 w2hitB heval).1 w2hitA hmem

/-- C7: trace is a total function of its arguments: it satisfies the
recurrence in which every recursive branch runs at depth - 1 and only when
depth > 0, and any function satisfying that recurrence agrees with trace
everywhere, so the recursion bounded by the depth counter determines trace
uniquely. -/
theorem trace_depth_bounded_total :
    (∀ (scene : Scene) (ox oy dx dy : ℝ) (n : ℕ),
      trace scene ox oy dx dy n =
        traceBody scene (fun x y rx ry => trace scene x y rx ry (n - 1)) ox oy dx dy n) ∧
    (∀ f : Scene → ℝ → ℝ → ℝ → ℝ → ℕ → Color,
      (∀ (scene : Scene) (ox oy dx dy : ℝ) (n : ℕ),
        f scene ox oy dx dy n =
          traceBody scene (fun x y rx ry => f scene x y rx ry (n - 1)) ox oy dx dy n) →
      ∀ (scene : Scene) (ox oy dx dy : ℝ) (n : ℕ),
        f scene ox oy dx dy n = trace scene ox oy dx dy n) := by
  constructor
  · intro scene ox oy dx dy n
    exact traceN_unfold scene n ox oy dx dy
  · intro f hf scene ox oy dx dy n
    induction n generalizing ox oy dx dy with
    | zero =>
      rw [hf scene ox oy dx dy 0,
        show trace scene ox oy dx dy 0 =
          traceBody scene (fun _ _ _ _ => Color.black) ox oy dx dy 0 from rfl]
      exact traceBody_zero_rec scene _ _ ox oy dx dy
    | succ m ih =>
      rw [hf scene ox oy dx dy (m + 1)]
      have hfun : (fun x y rx ry => f scene x y rx ry (m + 1 - 1)) =
          (fun x y rx ry => traceN scene m x y rx ry) := by
        funext x y rx ry
        rw [Nat.add_sub_cancel]
        exact ih x y rx ry
      rw [hfun]
      rfl

/-- C7 witness: the structural-recursion implementation satisfies the
recurrence, so the uniqueness half applies to it at a concrete input. -/
theorem trace_depth_bounded_total_witness :
    traceN ⟨[]⟩ 2 0 0 1 0 = trace ⟨[]⟩ 0 0 1 0 2 :=
  trace_depth_bounded_total.2 (fun scene ox oy dx dy n => traceN scene n ox oy dx dy)
    (fun scene ox oy dx dy n => traceN_unfold scene n ox oy dx dy) ⟨[]⟩ 0 0 1 0 2

/-- C1 (amended): with depth 0 no recursive branch executes; trace returns the
emissive color of the nearest hit, Beer-Lambert-attenuated when the ray reaches the
boundary from inside (oriented-normal sign negative). -/
theorem trace_depth_zero_emissive (scene : Scene) (ox oy dx dy : ℝ)
    (r : EntityIntersection)
    (hit : Scene.intersect scene (ox, oy) (dx, dy) = some r)
    (_hmat : 0 < r.reflectivity ∨ 0 < r.eta) :
    trace scene ox oy dx dy 0 =
      if r.normal.1 * dx + r.normal.2 * dy < 0 then r.emissive
      else Color.mul r.emissive (beer_lambert r.absorption (distance (ox, oy) r.point)) := by
  show traceBody scene (fun _ _ _ _ => Color.black) ox oy dx dy 0 = _
  unfold traceBody
  rw [hit]
  by_cases hnd : r.normal.1 * dx + r.normal.2 * dy < 0
  · simp only [if_pos hnd]
    norm_num
  · simp only [if_neg hnd]
    norm_num

/-- C1 witness: entering hit from outside, the result is exactly the
emissive color. -/
theorem trace_depth_zero_emissive_witness :
    trace w1s (-2) 0 1 0 0 = w1hit.emissive := by
  have hc : Entity.intersect w1e (-2, 0) (1, 0) =
      [w1hit, ⟨(1, 0), (1, 0), ⟨2, 3, 4⟩, 1 / 2, 0, ⟨5, 6, 7⟩⟩] := by
    unfold Entity.intersect w1e w1hit
    simp only [Shape.intersect]
    unfold circleIntersect
    norm_num [EPSILON, sqrt_four]
  have hd1 : distance (-2, 0) ((-1 : ℝ), (0 : ℝ)) = 1 := by
    unfold distance; norm_num
  have hd3 : distance (-2, 0) ((1 : ℝ), (0 : ℝ)) = 3 := by
    unfold distance; norm_num; exact sqrt_nine
  have heval : Scene.intersect w1s (-2, 0) (1, 0) = some w1hit := by
    unfold Scene.intersect
    rw [show w1s.entities = [w1e] from rfl]
    rw [List.foldl_cons, List.foldl_nil, hc]
    rw [List.foldl_cons, List.foldl_cons, List.foldl_nil]
    rw [show sceneStep (-2, 0) none w1hit = some w1hit from rfl]
    exact if_neg (by norm_num [w1hit, hd1, hd3])
  have h := trace_depth_zero_emissive w1s (-2) 0 1 0 w1hit heval
    (Or.inl (by norm_num [w1hit]))
  rw [h]
  norm_num [w1hit]

/-- C1 counterexample: in c1s the nearest hit lies on a refractive entity, yet
trace at depth 0 does not return the emissive color: the ray reaches the
boundary of the circle from inside, so Beer-Lambert attenuation applies. -/
theorem trace_depth_zero_emissive_cex :
    Scene.intersect c1s (0, 0) (1, 0) = some c1hit ∧ 0 < c1hit.eta ∧
      trace c1s 0 0 1 0 0 ≠ c1hit.emissive := by
  have hc : Entity.intersect c1e (0, 0) (1, 0) = [c1hit] := by
    unfold Entity.intersect c1e c1hit
    simp only [Shape.intersect]
    unfold circleIntersect
    norm_num [EPSILON, sqrt_four]
  have heval : Scene.intersect c1s (0, 0) (1, 0) = some c1hit := by
    unfold Scene.intersect
    rw [show c1s.entities = [c1e] from rfl]
    rw [List.foldl_cons, List.foldl_nil, hc]
    rfl
  refine ⟨heval, by norm_num [c1hit], ?_⟩
  have hdist : distance (0, 0) ((1 : ℝ), (0 : ℝ)) = 1 := by
    unfold distance; norm_num
  have htr : trace c1s 0 0 1 0 0 =
      Color.mul c1hit.emissive (beer_lambert c1hit.absorption 1) := by
    show traceBody c1s (fun _ _ _ _ => Color.black) 0 0 1 0 0 = _
    unfold traceBody
    rw [heval]
    norm_num [c1hit]
    rw [show distance 0 ((1 : ℝ), (0 : ℝ)) = 1 from hdist]
  rw [htr]
  intro hcolor
  have hr := congrArg Color.r hcolor
  simp [c1hit, Color.mul, beer_lambert] at hr

/-- C4: when refraction is attempted and the Snell discriminant is negative,
no transmitted recursive call is made, the reflectivity is forced to 1, and
the result is the emissive term plus the fully weighted reflected
contribution (Beer-Lambert-attenuated when the hit is from inside). -/
theorem trace_tir_forces_reflection (scene : Scene) (ox oy dx dy : ℝ) (n : ℕ)
    (r : EntityIntersection) (sign nx ny eta rx ry : ℝ)
    (hit : Scene.intersect scene (ox, oy) (dx, dy) = some r)
    (heta : 0 < r.eta)
    (hsign : sign = if r.normal.1 * dx + r.normal.2 * dy < 0 then 1 else -1)
    (hnx : nx = r.normal.1 * sign) (hny : ny = r.normal.2 * sign)
    (heq : eta = if sign < 0 then r.eta else 1 / r.eta)
    (hk : 1 - eta * eta * (1 - (dx * nx + dy * ny) * (dx * nx + dy * ny)) < 0)
    (hrx : rx = (reflect dx dy nx ny).1) (hry : ry = (reflect dx dy nx ny).2) :
    trace scene ox oy dx dy (n + 1) =
      if sign < 0 then
        Color.mul
          (Color.add r.emissive (Color.scale (trace scene r.point.1 r.point.2 rx ry n) 1))
          (beer_lambert r.absorption (distance (ox, oy) r.point))
      else
        Color.add r.emissive (Color.scale (trace scene r.point.1 r.point.2 rx ry n) 1) := by
  have hguard : 0 < n + 1 ∧ (0 < r.reflectivity ∨ 0 < r.eta) :=
    ⟨Nat.succ_pos n, Or.inr heta⟩
  show traceBody scene (fun x y rx ry => traceN scene n x y rx ry) ox oy dx dy (n + 1) = _
  unfold traceBody
  rw [hit]
  by_cases hnd : r.normal.1 * dx + r.normal.2 * dy < 0
  · rw [if_pos hnd] at hsign
    subst hsign
    have h10 : ¬ ((1 : ℝ) < 0) := by norm_num
    rw [if_neg h10] at heq
    simp only [if_pos hnd, if_pos hguard, if_pos heta, if_neg h10]
    rw [← hnx, ← hny, ← heq]
    rw [show refract dx dy nx ny eta = none from by unfold refract; exact if_pos hk]
    norm_num [hrx, hry, trace]
  · rw [if_neg hnd] at hsign
    subst hsign
    have h10 : ((-1 : ℝ) < 0) := by norm_num
    rw [if_pos h10] at heq
    simp only [if_neg hnd, if_pos hguard, if_pos heta, if_pos h10]
    rw [← hnx, ← hny, ← heq]
    rw [show refract dx dy nx ny eta = none from by unfold refract; exact if_pos hk]
    norm_num [hrx, hry, trace]

/-- C4 witness: a concrete total-internal-reflection event at a refractive
plane, hit from inside with a grazing ray. -/
theorem trace_tir_witness :
    trace w4s 0 0 1 (1 / 2) 1 =
      Color.mul (Color.add w4hit.emissive (Color.scale (trace w4s 20 10 1 (-(1 / 2)) 0) 1))
        (beer_lambert w4hit.absorption (distance (0, 0) w4hit.point)) := by
  have hp : Entity.intersect w4e (0, 0) (1, 1 / 2) = [w4hit] := by
    unfold Entity.intersect w4e w4hit
    simp only [Shape.intersect]
    unfold planeIntersect
    norm_num [EPSILON, abs_div]
  have heval : Scene.intersect w4s (0, 0) (1, 1 / 2) = some w4hit := by
    unfold Scene.intersect
    rw [show w4s.entities = [w4e] from rfl]
    rw [List.foldl_cons, List.foldl_nil, hp]
    rfl
  have h := trace_tir_forces_reflection w4s 0 0 1 (1 / 2) 0 w4hit (-1) 0 (-1) 2 1 (-(1 / 2))
    heval (by norm_num [w4hit]) (by norm_num [w4hit]) (by norm_num [w4hit])
    (by norm_num [w4hit]) (by norm_num [w4hit]) (by norm_num [w4hit])
    (by norm_num [reflect]) (by norm_num [reflect])
  rw [h]
  norm_num [w4hit]

theorem quadratic_root_of_pm (A B C s t : ℝ) (hA : A ≠ 0) (hs : s * s = B * B - 4 * A * C)
    (ht : t = (-B - s) / (2 * A) ∨ t = (-B + s) / (2 * A)) :
    A * (t * t) + B * t + C = 0 := by
  have h2A : (2 : ℝ) * A ≠ 0 := mul_ne_zero two_ne_zero hA
  rcases ht with ht | ht <;> subst ht <;> field_simp <;> nlinarith [hs]

theorem on_circle_of_root (cx cy r px py dx dy t : ℝ)
    (hroot : (dx * dx + dy * dy) * (t * t) + (2 * ((px - cx) * dx + (py - cy) * dy)) * t +
      ((px - cx) * (px - cx) + (py - cy) * (py - cy) - r * r) = 0) :
    (px + dx * t - cx) * (px + dx * t - cx) + (py + dy * t - cy) * (py + dy * t - cy) = r * r := by
  linear_combination hroot

theorem disc_eq_of_root (A B C t : ℝ)
    (hroot : A * (t * t) + B * t + C = 0) :
    B * B - 4 * A * C = (2 * A * t + B) * (2 * A * t + B) := by
  linear_combination (-4 * A) * hroot

theorem circle_hit_props (cx cy r px py dx dy t : ℝ) (it : Intersection)
    (ht : EPSILON < t)
    (hroot : (dx * dx + dy * dy) * (t * t) + (2 * ((px - cx) * dx + (py - cy) * dy)) * t +
      ((px - cx) * (px - cx) + (py - cy) * (py - cy) - r * r) = 0)
    (hpt : it.point = (px + dx * t, py + dy * t))
    (hn : it.normal =
      ((px + dx * t - cx) / Real.sqrt ((px + dx * t - cx) * (px + dx * t - cx) +
          (py + dy * t - cy) * (py + dy * t - cy)),
       (py + dy * t - cy) / Real.sqrt ((px + dx * t - cx) * (px + dx * t - cx) +
          (py + dy * t - cy) * (py + dy * t - cy)))) :
    ∃ t : ℝ, EPSILON < t ∧ it.point = (px + dx * t, py + dy * t) ∧
      (dx * dx + dy * dy) * (t * t) + (2 * ((px - cx) * dx + (py - cy) * dy)) * t +
        ((px - cx) * (px - cx) + (py - cy) * (py - cy) - r * r) = 0 ∧
      it.normal =
        ((it.point.1 - cx) / Real.sqrt ((it.point.1 - cx) * (it.point.1 - cx) +
            (it.point.2 - cy) * (it.point.2 - cy)),
         (it.point.2 - cy) / Real.sqrt ((it.point.1 - cx) * (it.point.1 - cx) +
            (it.point.2 - cy) * (it.point.2 - cy))) ∧
      (0 < r → it.normal = ((it.point.1 - cx) / r, (it.point.2 - cy) / r) ∧
        it.normal.1 * it.normal.1 + it.normal.2 * it.normal.2 = 1) := by
  have honc := on_circle_of_root cx cy r px py dx dy t hroot
  refine ⟨t, ht, hpt, hroot, ?_, ?_⟩
  · rw [hn, hpt]
  · intro hr
    have hL : Real.sqrt ((px + dx * t - cx) * (px + dx * t - cx) +
        (py + dy * t - cy) * (py + dy * t - cy)) = r := by
      rw [honc]
      exact Real.sqrt_mul_self (le_of_lt hr)
    constructor
    · rw [hn, hpt, hL]
    · rw [hn]
      simp only []
      rw [hL]
      have hrne : r ≠ 0 := ne_of_gt hr
      field_simp
      linear_combination honc

theorem circle_intersect_sound (cx cy r px py dx dy : ℝ) (it : Intersection)
    (hmem : it ∈ circleIntersect cx cy r (px, py) (dx, dy)) :
    ∃ t : ℝ, EPSILON < t ∧ it.point = (px + dx * t, py + dy * t) ∧
      (dx * dx + dy * dy) * (t * t) + (2 * ((px - cx) * dx + (py - cy) * dy)) * t +
        ((px - cx) * (px - cx) + (py - cy) * (py - cy) - r * r) = 0 ∧
      it.normal =
        ((it.point.1 - cx) / Real.sqrt ((it.point.1 - cx) * (it.point.1 - cx) +
            (it.point.2 - cy) * (it.point.2 - cy)),
         (it.point.2 - cy) / Real.sqrt ((it.point.1 - cx) * (it.point.1 - cx) +
            (it.point.2 - cy) * (it.point.2 - cy))) ∧
      (0 < r → it.normal = ((it.point.1 - cx) / r, (it.point.2 - cy) / r) ∧
        it.normal.1 * it.normal.1 + it.normal.2 * it.normal.2 = 1) := by
  unfold circleIntersect at hmem
  simp only [] at hmem
  split_ifs at hmem with hd h1 h2 h3
  · exact absurd hmem (by simp)
  · have hs := Real.mul_self_sqrt (not_lt.mp hd)
    simp only [List.mem_append, List.mem_singleton] at hmem
    rcases hmem with h | h
    · have hA : dx * dx + dy * dy ≠ 0 := by
        intro h0
        rw [h0] at h1
        norm_num [EPSILON] at h1
      have hroot := quadratic_root_of_pm (dx * dx + dy * dy)
        (2 * ((px - cx) * dx + (py - cy) * dy))
        ((px - cx) * (px - cx) + (py - cy) * (py - cy) - r * r) _ _ hA hs (Or.inl rfl)
      exact circle_hit_props cx cy r px py dx dy _ it h1 hroot (by rw [h]) (by rw [h])
    · have hA : dx * dx + dy * dy ≠ 0 := by
        intro h0
        rw [h0] at h2
        norm_num [EPSILON] at h2
      have hroot := quadratic_root_of_pm (dx * dx + dy * dy)
        (2 * ((px - cx) * dx + (py - cy) * dy))
        ((px - cx) * (px - cx) + (py - cy) * (py - cy) - r * r) _ _ hA hs (Or.inr rfl)
      exact circle_hit_props cx cy r px py dx dy _ it h2 hroot (by rw [h]) (by rw [h])
  · have hs := Real.mul_self_sqrt (not_lt.mp hd)
    simp only [List.append_nil, List.mem_singleton] at hmem
    have hA : dx * dx + dy * dy ≠ 0 := by
      intro h0
      rw [h0] at h1
      norm_num [EPSILON] at h1
    have hroot := quadratic_root_of_pm (dx * dx + dy * dy)
      (2 * ((px - cx) * dx + (py - cy) * dy))
      ((px - cx) * (px - cx) + (py - cy) * (py - cy) - r * r) _ _ hA hs (Or.inl rfl)
    exact circle_hit_props cx cy r px py dx dy _ it h1 hroot (by rw [hmem]) (by rw [hmem])
  · have hs := Real.mul_self_sqrt (not_lt.mp hd)
    simp only [List.nil_append, List.mem_singleton] at hmem
    have hA : dx * dx + dy * dy ≠ 0 := by
      intro h0
      rw [h0] at h3
      norm_num [EPSILON] at h3
    have hroot := quadratic_root_of_pm (dx * dx + dy * dy)
      (2 * ((px - cx) * dx + (py - cy) * dy))
      ((px - cx) * (px - cx) + (py - cy) * (py - cy) - r * r) _ _ hA hs (Or.inr rfl)
    exact circle_hit_props cx cy r px py dx dy _ it h3 hroot (by rw [hmem]) (by rw [hmem])
  · exact absurd hmem (by simp)

theorem circle_intersect_length (cx cy r px py dx dy : ℝ) :
    (circleIntersect cx cy r (px, py) (dx, dy)).length ≤ 2 := by
  unfold circleIntersect
  simp only []
  split_ifs <;> simp

theorem circle_intersect_complete (cx cy r px py dx dy t : ℝ)
    (ht : EPSILON < t) (hA : dx * dx + dy * dy ≠ 0)
    (hroot : (dx * dx + dy * dy) * (t * t) + (2 * ((px - cx) * dx + (py - cy) * dy)) * t +
      ((px - cx) * (px - cx) + (py - cy) * (py - cy) - r * r) = 0) :
    ∃ it ∈ circleIntersect cx cy r (px, py) (dx, dy),
      it.point = (px + dx * t, py + dy * t) := by
  have h2A : 2 * (dx * dx + dy * dy) ≠ 0 := mul_ne_zero two_ne_zero hA
  have hD := disc_eq_of_root (dx * dx + dy * dy) (2 * ((px - cx) * dx + (py - cy) * dy))
    ((px - cx) * (px - cx) + (py - cy) * (py - cy) - r * r) t hroot
  have hdnn : ¬ ((2 * ((px - cx) * dx + (py - cy) * dy)) *
      (2 * ((px - cx) * dx + (py - cy) * dy)) -
      4 * (dx * dx + dy * dy) *
        ((px - cx) * (px - cx) + (py - cy) * (py - cy) - r * r) < 0) := by
    rw [hD]
    exact not_lt.mpr (mul_self_nonneg _)
  have hsqrt : Real.sqrt ((2 * ((px - cx) * dx + (py - cy) * dy)) *
      (2 * ((px - cx) * dx + (py - cy) * dy)) -
      4 * (dx * dx + dy * dy) *
        ((px - cx) * (px - cx) + (py - cy) * (py - cy) - r * r)) =
      |2 * (dx * dx + dy * dy) * t + 2 * ((px - cx) * dx + (py - cy) * dy)| := by
    rw [hD]
    exact Real.sqrt_mul_self_eq_abs _
  unfold circleIntersect
  simp only []
  rw [if_neg hdnn]
  rcases abs_cases (2 * (dx * dx + dy * dy) * t +
      2 * ((px - cx) * dx + (py - cy) * dy)) with ⟨habs, _⟩ | ⟨habs, _⟩
  · have ht2 : (-(2 * ((px - cx) * dx + (py - cy) * dy)) +
        Real.sqrt ((2 * ((px - cx) * dx + (py - cy) * dy)) *
          (2 * ((px - cx) * dx + (py - cy) * dy)) -
          4 * (dx * dx + dy * dy) *
            ((px - cx) * (px - cx) + (py - cy) * (py - cy) - r * r))) /
        (2 * (dx * dx + dy * dy)) = t := by
      rw [hsqrt, habs]
      field_simp
    rw [ht2, if_pos ht]
    exact ⟨_, List.mem_append_right _ (List.mem_singleton_self _), rfl⟩
  · have ht1 : (-(2 * ((px - cx) * dx + (py - cy) * dy)) -
        Real.sqrt ((2 * ((px - cx) * dx + (py - cy) * dy)) *
          (2 * ((px - cx) * dx + (py - cy) * dy)) -
          4 * (dx * dx + dy * dy) *
            ((px - cx) * (px - cx) + (py - cy) * (py - cy) - r * r))) /
        (2 * (dx * dx + dy * dy)) = t := by
      rw [hsqrt, habs]
      field_simp
    rw [ht1, if_pos ht]
    exact ⟨_, List.mem_append_left _ (List.mem_singleton_self _), rfl⟩

theorem circle_example_eval :
    circleIntersect 0 0 1 (-2, 0) (1, 0) = [⟨(-1, 0), (-1, 0)⟩, ⟨(1, 0), (1, 0)⟩] := by
  unfold circleIntersect
  norm_num [EPSILON, sqrt_four]

/-- C6: Circle::intersect solves the ray-circle quadratic: every returned hit
comes from a root t greater than EPSILON, lies at the ray point of parameter
t, satisfies the quadratic, and carries the outward radial unit normal (for a
positive radius); at most two hits are returned, every root above EPSILON
yields a hit when the direction is nonzero, and the concrete unit-circle
instance from (-2,0) in direction (1,0) returns exactly the hits at x = -1
and x = 1. -/
theorem circle_intersect_quadratic :
    (∀ cx cy r px py dx dy : ℝ, ∀ it ∈ circleIntersect cx cy r (px, py) (dx, dy),
      ∃ t : ℝ, EPSILON < t ∧ it.point = (px + dx * t, py + dy * t) ∧
        (dx * dx + dy * dy) * (t * t) + (2 * ((px - cx) * dx + (py - cy) * dy)) * t +
          ((px - cx) * (px - cx) + (py - cy) * (py - cy) - r * r) = 0 ∧
        it.normal =
          ((it.point.1 - cx) / Real.sqrt ((it.point.1 - cx) * (it.point.1 - cx) +
              (it.point.2 - cy) * (it.point.2 - cy)),
           (it.point.2 - cy) / Real.sqrt ((it.point.1 - cx) * (it.point.1 - cx) +
              (it.point.2 - cy) * (it.point.2 - cy))) ∧
        (0 < r → it.normal = ((it.point.1 - cx) / r, (it.point.2 - cy) / r) ∧
          it.normal.1 * it.normal.1 + it.normal.2 * it.normal.2 = 1)) ∧
    (∀ cx cy r px py dx dy : ℝ, (circleIntersect cx cy r (px, py) (dx, dy)).length ≤ 2) ∧
    (∀ cx cy r px py dx dy t : ℝ, EPSILON < t → dx * dx + dy * dy ≠ 0 →
      (dx * dx + dy * dy) * (t * t) + (2 * ((px - cx) * dx + (py - cy) * dy)) * t +
        ((px - cx) * (px - cx) + (py - cy) * (py - cy) - r * r) = 0 →
      ∃ it ∈ circleIntersect cx cy r (px, py) (dx, dy),
        it.point = (px + dx * t, py + dy * t)) ∧
    circleIntersect 0 0 1 (-2, 0) (1, 0) = [⟨(-1, 0), (-1, 0)⟩, ⟨(1, 0), (1, 0)⟩] :=
  ⟨fun cx cy r px py dx dy it hmem => circle_intersect_sound cx cy r px py dx dy it hmem,
   fun cx cy r px py dx dy => circle_intersect_length cx cy r px py dx dy,
   fun cx cy r px py dx dy t ht hA hroot =>
     circle_intersect_complete cx cy r px py dx dy t ht hA hroot,
   circle_example_eval⟩

/-- C6 witness: the root t = 1 of the unit-circle instance yields the hit at
(-1, 0), discharging the epsilon, nonzero-direction, and root hypotheses. -/
theorem circle_intersect_quadratic_witness :
    ∃ it ∈ circleIntersect 0 0 1 (-2, 0) (1, 0), it.point = (-1, 0) := by
  have h := circle_intersect_quadratic.2.2.1 0 0 1 (-2) 0 1 0 1 (by norm_num [EPSILON])
    (by norm_num) (by norm_num)
  have he : (-2 : ℝ) + 1 = -1 := by norm_num
  simpa [he] using h
